import Mathlib

/-!
Shallow embedding of the alvis-intro repository:
`examples/ImageClassification/train.py` (configuration parsing, dataset
assembly by glob, batching, and the training loop) and
`tutorial/6_single_node_multi_gpu/PyTorch/dataset.py` (`RandomDataset`).

External framework behavior that the script relies on is embedded with the
behavior documented for the libraries it calls (Python `glob.glob`,
`datasets.concatenate_datasets`, `torch.utils.data.DataLoader` with the
default sequential sampler and `drop_last=False`); the tensor engine itself
(model forward, autograd, Adam) is kept abstract as opaque parameters, since
the script only sequences calls into it.
-/

set_option maxRecDepth 4000

/-- Error taxonomy used by the spec for the runtime failures the script can
hit.  `configError` abstracts an `argparse` type-conversion failure,
`dataSourceError` the `ValueError` that `concatenate_datasets` raises on an
empty shard list, `valueError` the `ValueError` that `DataLoader` /
`BatchSampler` raise on an invalid `batch_size` or `num_workers`, and
`nameError` the Python `NameError` hit when `print` reads the unbound
variable `loss` (possible only when the loader yields no batch at all). -/
inductive TrainError where
  | configError
  | dataSourceError
  | dataLoadError
  | deviceError
  | computeError
  | valueError
  | nameError
deriving DecidableEq, Repr

/-- Digit-string to number, accumulator style: models the digit part of
Python `int(...)` conversion as used by `argparse` with `type=int`. -/
def digitsToNatAux : List Char → Nat → Option Nat
  | [], acc => some acc
  | c :: cs, acc =>
      if c.isDigit then digitsToNatAux cs (acc * 10 + (c.toNat - 48)) else none

/-- A non-empty all-digit string parses to its value; anything else fails. -/
def digitsToNat (cs : List Char) : Option Nat :=
  match cs with
  | [] => none
  | _ :: _ => digitsToNatAux cs 0

/-- Models Python `int(s)` on the argument subset `argparse` hands over:
an optional sign followed by decimal digits.  (Python additionally strips
whitespace and allows `_` separators; those never occur in the scenarios
considered here.) -/
def pyInt (s : String) : Option Int :=
  match s.data with
  | [] => none
  | c :: cs =>
      if c = '-' then (digitsToNat cs).map (fun n => -(n : Int))
      else if c = '+' then (digitsToNat cs).map (fun n => (n : Int))
      else (digitsToNat (c :: cs)).map (fun n => (n : Int))

/-- Models `parser.add_argument("--batch-size", type=int, ...)` applied to a
supplied value string: `argparse` calls `int(...)` on it and reports a bad
value (the spec's `ConfigError`) exactly when that conversion fails.
`argparse` treats a lone `-1` as a negative-number value, not as an option,
because no registered option string looks like a negative number. -/
def parseBatchSize (s : String) : Except TrainError Int :=
  match pyInt s with
  | some n => Except.ok n
  | none => Except.error TrainError.configError

/-- Fuel-indexed batching: groups a list into consecutive groups of `b`
(the last group may be shorter).  Models `torch.utils.data.DataLoader` with
the default `SequentialSampler`, `shuffle` off and `drop_last=False`, as
constructed in `train.py`. -/
def chunksAux (b : Nat) : Nat → List α → List (List α)
  | 0, _ => []
  | _, [] => []
  | Nat.succ f, x :: xs => (x :: xs.take (b - 1)) :: chunksAux b f (xs.drop (b - 1))

/-- One full pass of the batch loader over dataset `l` with batch size `b`. -/
def chunks (b : Nat) (l : List α) : List (List α) :=
  chunksAux b l.length l

/-- The supported torch dtypes appearing in `train.py`. -/
inductive PyDType where
  | uint8
  | float32
deriving DecidableEq, Repr

/-- One element of the `torchvision.transforms.v2` pipeline, with the
parameters `train.py` passes. -/
inductive TransformStep where
  | toImage
  | toDtype (dtype : PyDType) (scale : Bool)
  | randomResizedCrop (height width : Nat) (antialias : Bool)
  | randomHorizontalFlip (p : Rat)
  | normalize (mean std : List Rat)
deriving DecidableEq, Repr

/-- The `v2.Compose([...])` list built in `train.py`, in source order. -/
def trainTransforms : List TransformStep :=
  [TransformStep.toImage,
   TransformStep.toDtype PyDType.uint8 true,
   TransformStep.randomResizedCrop 224 224 true,
   TransformStep.randomHorizontalFlip 0.5,
   TransformStep.toDtype PyDType.float32 true,
   TransformStep.normalize [0.485, 0.456, 0.406] [0.229, 0.224, 0.225]]

/-- Modelled from the claim wording: decode to image tensor; convert to
8-bit fixed point with rescaling; random crop-and-resize to 224×224; random
horizontal flip with probability 0.5; convert to floating point rescaled to
[0,1]; per-channel normalization with mean [0.485, 0.456, 0.406] and
standard deviation [0.229, 0.224, 0.225]. -/
def claimedTransformPipeline : List TransformStep :=
  [TransformStep.toImage,
   TransformStep.toDtype PyDType.uint8 true,
   TransformStep.randomResizedCrop 224 224 true,
   TransformStep.randomHorizontalFlip 0.5,
   TransformStep.toDtype PyDType.float32 true,
   TransformStep.normalize [0.485, 0.456, 0.406] [0.229, 0.224, 0.225]]

/-- One observable action of the training-loop body on a batch `b`:
`zeroGrad` is `optimizer.zero_grad()`, `forward b` is `model(inputs)`,
`lossOp b` is `loss_fn(outputs, labels)`, `backward` is `loss.backward()`
and `step` is `optimizer.step()`. -/
inductive BatchOp (B : Type) where
  | zeroGrad
  | forward (b : B)
  | lossOp (b : B)
  | backward
  | step
deriving DecidableEq, Repr

/-- The operations the loop body of `train.py` performs on one batch, in
source order. -/
def batchBody (b : B) : List (BatchOp B) :=
  [BatchOp.zeroGrad, BatchOp.forward b, BatchOp.lossOp b, BatchOp.backward,
   BatchOp.step]

/-- Whether an action is an optimizer step. -/
def isStepOp : BatchOp B → Bool
  | BatchOp.step => true
  | _ => false

/-- Number of optimizer steps in a list of actions. -/
def stepCount (ops : List (BatchOp B)) : Nat :=
  ops.countP isStepOp

/-- The inner `for inputs, labels in trainloader:` loop of `train.py`,
which ends with an unconditional `break`: given the fresh pass `batches`,
the model state `m` and the previous value of the Python variable `loss`
(`none` when still unbound), it returns the actions performed, the model
state after the loop and the value of `loss` after the loop.
`fL m b` abstracts `loss_fn(model(inputs), labels)` on batch `b` with model
state `m`; `oS m b` abstracts the state after `loss.backward()` plus
`optimizer.step()`. -/
def innerLoop (fL : M → B → L) (oS : M → B → M) (m : M) (batches : List B)
    (prev : Option L) : List (BatchOp B) × M × Option L :=
  match batches with
  | [] => ([], m, prev)
  | b :: _ => (batchBody b, oS m b, some (fL m b))

/-- The per-epoch progress line: `print(f"Epoch {epoch+1}/{args.num_epochs}",
f"Loss: {loss}")` joins its two arguments with a space. -/
def progressLine (i n : Nat) (lossStr : String) : String :=
  s!"Epoch {i}/{n} Loss: {lossStr}"

/-- The epoch loop of `train.py`, unrolled from epoch index `e` for `k`
further epochs (out of `n` total, used only for the printed line): each
epoch runs `innerLoop` on a fresh pass `batches` of the loader, then prints
the progress line with the current value of `loss`.  Returns `none` when
`print` would hit an unbound `loss` (Python `NameError`), otherwise the
list of (actions, printed line) per epoch and the final model state. -/
def runFrom (fL : M → B → L) (oS : M → B → M) (fmt : L → String) (n : Nat)
    (batches : List B) (e : Nat) (k : Nat) (m : M) (prev : Option L) :
    Option (List (List (BatchOp B) × String) × M) :=
  match k with
  | 0 => some ([], m)
  | Nat.succ k2 =>
      let t := innerLoop fL oS m batches prev
      match t.2.2 with
      | none => none
      | some l =>
          match runFrom fL oS fmt n batches (e + 1) k2 t.2.1 (some l) with
          | none => none
          | some r => some ((t.1, progressLine (e + 1) n (fmt l)) :: r.1, r.2)

/-- A whole training run (the `for epoch in range(args.num_epochs):` loop)
starting from model state `m0`, with `loss` initially unbound. -/
def trainRun (fL : M → B → L) (oS : M → B → M) (fmt : L → String) (n : Nat)
    (batches : List B) (m0 : M) :
    Option (List (List (BatchOp B) × String) × M) :=
  runFrom fL oS fmt n batches 0 n m0 none

/-- The lines a run prints to standard output, one per epoch. -/
def runLines (fL : M → B → L) (oS : M → B → M) (fmt : L → String) (n : Nat)
    (batches : List B) (m0 : M) : Option (List String) :=
  (trainRun fL oS fmt n batches m0).map (fun r => r.1.map Prod.snd)

/-- The actions a run performs, grouped per epoch. -/
def runOps (fL : M → B → L) (oS : M → B → M) (fmt : L → String) (n : Nat)
    (batches : List B) (m0 : M) : Option (List (List (BatchOp B))) :=
  (trainRun fL oS fmt n batches m0).map (fun r => r.1.map Prod.fst)

/-- Glob pattern matching for the wildcard subset the script's fixed
pattern uses: `?` matches any single character, every other pattern
character matches itself.  (The pattern in `train.py` contains `?` but no
`*` or `[...]`.) -/
def fnmatchQ : List Char → List Char → Bool
  | [], [] => true
  | [], _ :: _ => false
  | _ :: _, [] => false
  | p :: ps, c :: cs => (p = '?' || p = c) && fnmatchQ ps cs

/-- The glob pattern `f"{args.dataroot}/imagenet-1k-train-00???-of-00257.arrow"`
built in `train.py`. -/
def trainPattern (dataroot : String) : String :=
  dataroot ++ "/imagenet-1k-train-00???-of-00257.arrow"

/-- A modelled filesystem is a list of (filename, shard contents) pairs in
directory-enumeration order; `glob.glob` documents that its result order is
arbitrary (filesystem-dependent), so the embedding keeps the enumeration
order and applies no sort — exactly as `train.py` does. -/
def matchingShards (fs : List (String × List α)) (pat : String) :
    List (String × List α) :=
  fs.filter (fun s => fnmatchQ pat.data s.1.data)

/-- Models the dataset assembly of `train.py`:
`concatenate_datasets([Dataset.from_file(fn) for fn in glob(...)])`.
`concatenate_datasets` raises on an empty list (the spec's
`DataSourceError`); otherwise the logical dataset is the concatenation of
the matched shards in the order glob enumerated them. -/
def assembleDataset (fs : List (String × List α)) (pat : String) :
    Except TrainError (List α) :=
  match matchingShards fs pat with
  | [] => Except.error TrainError.dataSourceError
  | s :: ss => Except.ok (((s :: ss).map Prod.snd).flatten)

/-- Lexicographic order on character lists: the order in which Python
compares (and sorts) strings. -/
def charListLt : List Char → List Char → Bool
  | [], [] => false
  | [], _ :: _ => true
  | _ :: _, [] => false
  | c :: cs, d :: ds => if c < d then true else if d < c then false else charListLt cs ds

/-- Insert a shard into a list of shards sorted by filename. -/
def insertByName (s : String × List α) :
    List (String × List α) → List (String × List α)
  | [] => [s]
  | t :: ts =>
      if charListLt t.1.data s.1.data then t :: insertByName s ts else s :: t :: ts

/-- Insertion sort of shards by filename. -/
def sortShardsByName (l : List (String × List α)) : List (String × List α) :=
  l.foldr insertByName []

/-- Modelled from the spec: the same assembly but with the matched shards
concatenated in filename-sort order, as the spec's sentence
"concatenates them in filename-sort order" demands. -/
def assembleDatasetSorted (fs : List (String × List α)) (pat : String) :
    Except TrainError (List α) :=
  match sortShardsByName (matchingShards fs pat) with
  | [] => Except.error TrainError.dataSourceError
  | s :: ss => Except.ok (((s :: ss).map Prod.snd).flatten)

/-- The command-line configuration surface of `train.py`, one field per
registered option.  `batchSize`, `numEpochs` and `numWorkers` are `int`s
(so negative values pass parsing), `learningRate` abstracts the float as a
rational, `device` keeps the device string. -/
structure Config where
  batchSize : Int
  learningRate : Rat
  numEpochs : Int
  useTf32 : Bool
  numWorkers : Int
  pinMemory : Bool
  device : String
  dataroot : String
deriving DecidableEq, Repr

/-- The whole of `main()` in `train.py` as a function of the configuration,
the filesystem, and the abstract tensor engine: assemble the dataset from
the globbed shards, construct the loader (which validates `batch_size ≥ 1`
and `num_workers ≥ 0`, raising `ValueError` otherwise — after the dataset
was already assembled), build the model on the configured device
(`modelInit cfg.device`) and the optimizer with the configured learning
rate (threaded into the abstract step `oS cfg.learningRate`), then run the
epoch loop and return the printed lines.  `range(args.num_epochs)` is empty
for a non-positive epoch count, hence `cfg.numEpochs.toNat`. -/
def mainRun (cfg : Config) (fs : List (String × List α)) (modelInit : String → M)
    (fL : M → List α → L) (oS : Rat → M → List α → M) (fmt : L → String) :
    Except TrainError (List String) :=
  match assembleDataset fs (trainPattern cfg.dataroot) with
  | Except.error e => Except.error e
  | Except.ok ds =>
      if cfg.batchSize ≤ 0 then Except.error TrainError.valueError
      else if cfg.numWorkers < 0 then Except.error TrainError.valueError
      else
        match runLines fL (oS cfg.learningRate) fmt cfg.numEpochs.toNat
            (chunks cfg.batchSize.toNat ds) (modelInit cfg.device) with
        | none => Except.error TrainError.nameError
        | some ls => Except.ok ls

/-- Models `argparse`'s handling of the `--use-tf32` `store_true` flag:
true exactly when the flag appears on the command line. -/
def parseUseTf32 (argv : List String) : Bool :=
  argv.contains "--use-tf32"

/-- The `RandomDataset` of `tutorial/6_single_node_multi_gpu/PyTorch/dataset.py`:
`self.len`, `self.data` (a `length × size` matrix) and `self.target`
(per row, the 1-element row `[sin (max of the data row)]`, computed once in
`__init__` via `self.data.max(1, keepdim=True)[0].sin()`). -/
structure RandomDataset (α : Type) where
  len : Nat
  data : List (List α)
  target : List (List α)

/-- `RandomDataset.__init__(size, length)`: `randn i j` abstracts entry
`(i, j)` of `torch.randn(length, size)` and `sin` abstracts elementwise
`torch.sin`.  A row's target is `[sin m]` for `m` its maximum entry; for
`size = 0` torch's `max` over the empty dimension raises, modeled by the
empty row. -/
def RandomDataset.init [LinearOrder α] (sin : α → α) (size length : Nat)
    (randn : Nat → Nat → α) : RandomDataset α :=
  let data := (List.range length).map fun i => (List.range size).map fun j => randn i j
  { len := length
    data := data
    target := data.map fun row =>
      match row.max? with
      | some m => [sin m]
      | none => [] }

/-- `RandomDataset.__getitem__(index)`: returns
`(self.data[index], self.target[index])`, raising `IndexError` (here
`none`) out of range.  It only reads; no state is modified by an access. -/
def RandomDataset.getitem (ds : RandomDataset α) (index : Nat) :
    Option (List α × List α) :=
  match ds.data.get? index, ds.target.get? index with
  | some d, some t => some (d, t)
  | _, _ => none

/-- `RandomDataset.__len__()`: returns `self.len`. -/
def RandomDataset.lenValue (ds : RandomDataset α) : Nat :=
  ds.len

/-- `chunksAux` is independent of the fuel once the fuel covers the list
length (each step consumes at least one element). -/
theorem chunksAux_congr (b : Nat) :
    ∀ (f₁ f₂ : Nat) (l : List α), l.length ≤ f₁ → l.length ≤ f₂ →
      chunksAux b f₁ l = chunksAux b f₂ l := by
  intro f₁
  induction f₁ with
  | zero =>
    intro f₂ l h₁ h₂
    have hl : l = [] := List.length_eq_zero.mp (Nat.le_zero.mp h₁)
    subst hl
    cases f₂ <;> simp [chunksAux]
  | succ f ih =>
    intro f₂ l h₁ h₂
    cases l with
    | nil => cases f₂ <;> simp [chunksAux]
    | cons x xs =>
      cases f₂ with
      | zero => simp at h₂
      | succ f₂ =>
        simp only [List.length_cons] at h₁ h₂
        simp only [chunksAux]
        congr 1
        apply ih
        · rw [List.length_drop]; omega
        · rw [List.length_drop]; omega

/-- A pass over the empty dataset yields no batches. -/
theorem chunks_nil (b : Nat) : chunks b ([] : List α) = [] := rfl

/-- Unfolding equation for `chunks` on a non-empty dataset. -/
theorem chunks_cons (b : Nat) (x : α) (xs : List α) :
    chunks b (x :: xs) = (x :: xs.take (b - 1)) :: chunks b (xs.drop (b - 1)) := by
  show chunksAux b (x :: xs).length (x :: xs) = _
  simp only [List.length_cons, chunksAux]
  congr 1
  apply chunksAux_congr
  · rw [List.length_drop]; omega
  · exact Nat.le_refl _

/-- A pass yields no batches exactly over the empty dataset. -/
theorem chunks_eq_nil_iff (b : Nat) (l : List α) : chunks b l = [] ↔ l = [] := by
  cases l with
  | nil => simp [chunks_nil]
  | cons x xs => rw [chunks_cons]; simp

/-- Number of batches in one pass, by strong induction on the dataset
length: ⌈length / b⌉, written `(length + b - 1) / b`. -/
theorem chunks_length_aux (b : Nat) (hb : 0 < b) :
    ∀ (n : Nat) (l : List α), l.length = n →
      (chunks b l).length = (l.length + b - 1) / b := by
  intro n
  induction n using Nat.strong_induction_on with
  | _ n ih =>
    intro l hn
    cases l with
    | nil =>
      simp only [chunks_nil, List.length_nil]
      rw [Nat.div_eq_of_lt (by omega)]
    | cons x xs =>
      subst hn
      rw [chunks_cons, List.length_cons]
      have hd : (xs.drop (b - 1)).length < (x :: xs).length := by
        rw [List.length_drop]; simp only [List.length_cons]; omega
      rw [ih _ (by simpa using hd) _ rfl, List.length_drop, List.length_cons]
      by_cases hc : b - 1 ≤ xs.length
      · have e1 : xs.length - (b - 1) + b - 1 = xs.length := by omega
        have e2 : xs.length + 1 + b - 1 = xs.length + b := by omega
        rw [e1, e2, Nat.add_div_right _ hb]
      · have e1 : xs.length - (b - 1) + b - 1 = b - 1 := by omega
        have e2 : xs.length + 1 + b - 1 = xs.length + b := by omega
        rw [e1, e2, Nat.add_div_right _ hb, Nat.div_eq_of_lt (by omega),
          Nat.div_eq_of_lt (by omega)]

/-- Every batch of a pass except possibly the last has exactly `b`
samples. -/
theorem chunks_full_aux (b : Nat) (hb : 0 < b) :
    ∀ (n : Nat) (l : List α), l.length = n →
      ∀ c ∈ (chunks b l).dropLast, c.length = b := by
  intro n
  induction n using Nat.strong_induction_on with
  | _ n ih =>
    intro l hn c hc
    cases l with
    | nil => rw [chunks_nil] at hc; simp at hc
    | cons x xs =>
      subst hn
      rw [chunks_cons] at hc
      cases hrest : chunks b (xs.drop (b - 1)) with
      | nil => rw [hrest] at hc; simp at hc
      | cons r rs =>
        rw [hrest, List.dropLast_cons₂] at hc
        rcases List.mem_cons.mp hc with h | h
        · subst h
          have hne : xs.drop (b - 1) ≠ [] := by
            intro h0
            rw [h0, chunks_nil] at hrest
            exact absurd hrest (by simp)
          have hlen : b - 1 < xs.length := by
            by_contra hle
            exact hne (List.drop_eq_nil_of_le (by omega))
          simp only [List.length_cons, List.length_take]
          rw [min_eq_left (Nat.le_of_lt hlen)]
          omega
        · rw [← hrest] at h
          exact ih (xs.drop (b - 1)).length
            (by rw [List.length_drop]; simp only [List.length_cons]; omega)
            _ rfl c h

/-- Closed form of the epoch loop over a non-empty pass `b :: bs`: each of
the `k` epochs starting at index `e` performs exactly the body actions for
the first batch `b`, prints the progress line with the loss of that batch
under the model state of that epoch, and steps the model once. -/
theorem runFrom_cons (fL : M → B → L) (oS : M → B → M) (fmt : L → String)
    (n : Nat) (b : B) (bs : List B) :
    ∀ (k e : Nat) (m : M) (prev : Option L),
      runFrom fL oS fmt n (b :: bs) e k m prev =
        some ((List.range k).map (fun j =>
            (batchBody b,
             progressLine (e + j + 1) n (fmt (fL ((fun x => oS x b)^[j] m) b)))),
          (fun x => oS x b)^[k] m) := by
  intro k
  induction k with
  | zero =>
    intro e m prev
    simp [runFrom]
  | succ k2 ih =>
    intro e m prev
    simp only [runFrom, innerLoop]
    rw [ih (e + 1) (oS m b) (some (fL m b))]
    simp only [List.range_succ_eq_map, List.map_cons, List.map_map]
    refine congrArg some (Prod.ext ?_ ?_)
    · simp only [Function.iterate_zero_apply, Nat.add_zero]
      congr 1
      refine congrArg (fun f => List.map f (List.range k2)) ?_
      funext j
      simp only [Function.comp_apply, Nat.succ_eq_add_one,
        Function.iterate_succ_apply]
      have ha : e + (j + 1) + 1 = e + 1 + j + 1 := by omega
      rw [ha]
    · simp [Function.iterate_succ_apply]

/-- Lines printed by a run over a non-empty pass: one line per epoch,
1-indexed, showing the loss of the first batch under that epoch's model
state. -/
theorem runLines_cons (fL : M → B → L) (oS : M → B → M) (fmt : L → String)
    (n : Nat) (b : B) (bs : List B) (m0 : M) :
    runLines fL oS fmt n (b :: bs) m0 =
      some ((List.range n).map (fun e =>
        progressLine (e + 1) n (fmt (fL ((fun x => oS x b)^[e] m0) b)))) := by
  unfold runLines trainRun
  rw [runFrom_cons]
  simp [List.map_map, Function.comp]

/-- Actions performed by a run over a non-empty pass: each epoch performs
exactly the body actions for the first batch. -/
theorem runOps_cons (fL : M → B → L) (oS : M → B → M) (fmt : L → String)
    (n : Nat) (b : B) (bs : List B) (m0 : M) :
    runOps fL oS fmt n (b :: bs) m0 =
      some ((List.range n).map (fun _ => batchBody b)) := by
  unfold runOps trainRun
  rw [runFrom_cons]
  simp only [Option.map_some', List.map_map]
  refine congrArg some ?_
  refine congrArg (fun f => List.map f (List.range n)) ?_
  funext j
  rfl

/-- The seed of a `foldl max` is below the result, and so is every list
element. -/
theorem le_foldl_max [LinearOrder α] :
    ∀ (l : List α) (a : α),
      a ≤ l.foldl max a ∧ ∀ x ∈ l, x ≤ l.foldl max a := by
  intro l
  induction l with
  | nil => intro a; simp
  | cons y ys ih =>
    intro a
    refine ⟨?_, ?_⟩
    · calc a ≤ max a y := le_max_left a y
        _ ≤ ys.foldl max (max a y) := (ih (max a y)).1
    · intro x hx
      rcases List.mem_cons.mp hx with h | h
      · subst h
        calc x ≤ max a x := le_max_right a x
          _ ≤ ys.foldl max (max a x) := (ih (max a x)).1
      · exact (ih (max a y)).2 x h

/-- `foldl max` returns its seed or a list element. -/
theorem foldl_max_mem [LinearOrder α] :
    ∀ (l : List α) (a : α), l.foldl max a = a ∨ l.foldl max a ∈ l := by
  intro l
  induction l with
  | nil => intro a; simp
  | cons y ys ih =>
    intro a
    rcases ih (max a y) with h | h
    · rcases max_choice a y with hm | hm
      · left
        simpa [hm] using h
      · right
        simp only [List.foldl_cons]
        rw [h, hm]
        exact List.mem_cons_self y ys
    · right
      exact List.mem_cons_of_mem y h

/-- `List.max?` returns a maximum entry: a member that bounds every
member. -/
theorem max?_spec [LinearOrder α] (l : List α) (m : α) (h : l.max? = some m) :
    m ∈ l ∧ ∀ x ∈ l, x ≤ m := by
  cases l with
  | nil => simp [List.max?] at h
  | cons x xs =>
    simp only [List.max?] at h
    have hm : xs.foldl max x = m := by
      exact Option.some.injEq _ _ ▸ h ▸ rfl
    constructor
    · rcases foldl_max_mem xs x with h0 | h0
      · rw [← hm, h0]; exact List.mem_cons_self x xs
      · rw [← hm]; exact List.mem_cons_of_mem x h0
    · intro y hy
      rcases List.mem_cons.mp hy with h0 | h0
      · subst h0
        rw [← hm]
        exact (le_foldl_max xs y).1
      · rw [← hm]
        exact (le_foldl_max xs x).2 y h0

/-- A two-shard filesystem whose directory-enumeration order is the
reverse of filename-sort order; both names match the train glob pattern. -/
def exShards : List (String × List Nat) :=
  [("d/imagenet-1k-train-00002-of-00257.arrow", [2]),
   ("d/imagenet-1k-train-00001-of-00257.arrow", [1])]

/-- A one-shard filesystem matching the train glob pattern. -/
def oneShard : List (String × List Nat) :=
  [("d/imagenet-1k-train-00000-of-00257.arrow", [5])]

/-- A filesystem with no file matching the train glob pattern. -/
def noShard : List (String × List Nat) :=
  [("d/labels.txt", [7])]

/-- Claim C1 (counterexample): the training loop does not process each
batch yielded by a fresh pass of the loader.  With a pass of two batches
`[0, 1]`, the single epoch's actions are exactly the body for batch `0`,
and no action at all (in particular no forward pass) touches batch `1`. -/
theorem trainLoop_second_batch_unprocessed :
    runOps (fun (_ : Unit) (b : Nat) => b) (fun m _ => m) (fun _ => "") 1
        [0, 1] () =
      some [[BatchOp.zeroGrad, BatchOp.forward 0, BatchOp.lossOp 0,
             BatchOp.backward, BatchOp.step]] ∧
    BatchOp.forward 1 ∉
      [BatchOp.zeroGrad, BatchOp.forward 0, BatchOp.lossOp 0,
       BatchOp.backward, BatchOp.step] := by
  refine ⟨by decide, by decide⟩

/-- Claim C1 (amended): in every epoch the driver obtains a fresh pass of
the batch loader and processes only its first batch; for that batch it
performs, in order: reset accumulated gradients, compute the model output,
compute the loss against the labels, propagate gradients backward, and
apply exactly one in-place optimizer step. -/
theorem trainLoop_first_batch_ops (fL : M → B → L) (oS : M → B → M)
    (fmt : L → String) (m m0 : M) (prev : Option L) (b : B) (bs : List B)
    (n : Nat) :
    innerLoop fL oS m (b :: bs) prev =
      ([BatchOp.zeroGrad, BatchOp.forward b, BatchOp.lossOp b,
        BatchOp.backward, BatchOp.step], oS m b, some (fL m b)) ∧
    stepCount (innerLoop fL oS m (b :: bs) prev).1 = 1 ∧
    runOps fL oS fmt n (b :: bs) m0 =
      some ((List.range n).map fun _ => batchBody b) := by
  exact ⟨rfl, rfl, runOps_cons fL oS fmt n b bs m0⟩

/-- Claim C2: the inner batch loop terminates immediately after the first
batch of each epoch (its result does not depend on the remaining batches),
at most one optimizer step happens per epoch, and the line reported for
each epoch carries the loss of that single processed batch (the first
batch of the pass, evaluated under that epoch's model state). -/
theorem trainLoop_breaks_after_first_batch (fL : M → B → L) (oS : M → B → M)
    (fmt : L → String) (m m0 : M) (prev : Option L) (b : B) (bs : List B)
    (n : Nat) :
    innerLoop fL oS m (b :: bs) prev = innerLoop fL oS m [b] prev ∧
    (∀ batches : List B, stepCount (innerLoop fL oS m batches prev).1 ≤ 1) ∧
    runLines fL oS fmt n (b :: bs) m0 =
      some ((List.range n).map fun e =>
        progressLine (e + 1) n (fmt (fL ((fun x => oS x b)^[e] m0) b))) := by
  refine ⟨rfl, ?_, runLines_cons fL oS fmt n b bs m0⟩
  intro batches
  cases batches with
  | nil => exact Nat.zero_le 1
  | cons c cs => exact Nat.le_refl 1

/-- Claim C3: one full pass of the batch loader over a dataset of length
`n` with batch size `b > 0` yields exactly `⌈n / b⌉ = (n + b - 1) / b`
batches, every batch except possibly the last has exactly `b` samples, and
a 257-sample dataset with batch size 64 yields batches of sizes
`[64, 64, 64, 64, 1]` in that order. -/
theorem dataLoader_batch_count_and_sizes (b : Nat) (hb : 0 < b)
    (l : List α) :
    (chunks b l).length = (l.length + b - 1) / b ∧
    (∀ c ∈ (chunks b l).dropLast, c.length = b) ∧
    (chunks 64 (List.range 257)).map List.length = [64, 64, 64, 64, 1] := by
  exact ⟨chunks_length_aux b hb l.length l rfl,
    chunks_full_aux b hb l.length l rfl, by decide⟩

/-- Witness for C3 at batch size 64 over the 257-sample dataset
`List.range 257`. -/
theorem dataLoader_batch_count_and_sizes_witness :
    0 < 64 ∧
    ((chunks 64 (List.range 257)).length = ((List.range 257).length + 64 - 1) / 64 ∧
     (∀ c ∈ (chunks 64 (List.range 257)).dropLast, c.length = 64) ∧
     (chunks 64 (List.range 257)).map List.length = [64, 64, 64, 64, 1]) :=
  ⟨by decide, dataLoader_batch_count_and_sizes 64 (by decide) (List.range 257)⟩

/-- Claim C4 (counterexample): the assembler concatenates shards in glob
enumeration (directory) order, which `glob.glob` does not sort; on a
directory listing the two matching shards `00002` before `00001`, the code
yields `[2, 1]` while filename-sort order would yield `[1, 2]`. -/
theorem assembleDataset_not_filename_sorted :
    assembleDataset exShards (trainPattern "d") = Except.ok [2, 1] ∧
    assembleDatasetSorted exShards (trainPattern "d") = Except.ok [1, 2] ∧
    assembleDataset exShards (trainPattern "d") ≠
      assembleDatasetSorted exShards (trainPattern "d") := by
  refine ⟨rfl, rfl, ?_⟩
  intro h
  rw [show assembleDataset exShards (trainPattern "d") = Except.ok [2, 1] from rfl,
    show assembleDatasetSorted exShards (trainPattern "d") = Except.ok [1, 2] from rfl]
    at h
  simp at h

/-- Claim C4 (amended): the dataset assembler concatenates all shard files
matching the glob pattern in the order the glob enumeration returns them
(not necessarily filename-sort order), and the logical dataset's length
equals the sum of the lengths of the discovered shards. -/
theorem assembleDataset_enumeration_order (fs : List (String × List α))
    (pat : String) (h : matchingShards fs pat ≠ []) :
    assembleDataset fs pat =
      Except.ok ((matchingShards fs pat).map Prod.snd).flatten ∧
    (((matchingShards fs pat).map Prod.snd).flatten).length =
      ((matchingShards fs pat).map (fun s => s.2.length)).sum := by
  constructor
  · unfold assembleDataset
    cases hm : matchingShards fs pat with
    | nil => exact absurd hm h
    | cons s ss => rfl
  · rw [List.length_flatten, List.map_map]
    rfl

/-- Witness for the amended C4 on the two-shard filesystem. -/
theorem assembleDataset_enumeration_order_witness :
    matchingShards exShards (trainPattern "d") ≠ [] ∧
    (assembleDataset exShards (trainPattern "d") =
      Except.ok ((matchingShards exShards (trainPattern "d")).map Prod.snd).flatten ∧
     (((matchingShards exShards (trainPattern "d")).map Prod.snd).flatten).length =
      ((matchingShards exShards (trainPattern "d")).map (fun s => s.2.length)).sum) :=
  ⟨by decide, assembleDataset_enumeration_order exShards (trainPattern "d") (by decide)⟩

/-- Claim C5: the per-sample transform pipeline built in `train.py` is
exactly the claimed ordered sequence: decode to image tensor; convert to
8-bit fixed point with rescaling; random crop-and-resize to 224×224;
random horizontal flip with probability 0.5; convert to floating point
rescaled to [0,1]; per-channel normalization with mean
[0.485, 0.456, 0.406] and standard deviation [0.229, 0.224, 0.225]. -/
theorem transformPipeline_matches_claim :
    trainTransforms = claimedTransformPipeline := rfl

/-- Claim C6: a run over a non-empty pass with configured epoch count `n`
prints exactly `n` progress lines, the line for epoch `e` (0-indexed)
being `Epoch {e+1}/{n} Loss: {value}`; in particular with `--num-epochs 2`
exactly the two lines `Epoch 1/2 ...` then `Epoch 2/2 ...` are printed. -/
theorem trainRun_prints_one_line_per_epoch (fL : M → B → L) (oS : M → B → M)
    (fmt : L → String) (n : Nat) (b : B) (bs : List B) (m0 : M) :
    (∃ ls, runLines fL oS fmt n (b :: bs) m0 = some ls ∧ ls.length = n ∧
      ∀ e, e < n → ls.get? e =
        some (progressLine (e + 1) n (fmt (fL ((fun x => oS x b)^[e] m0) b)))) ∧
    runLines fL oS fmt 2 (b :: bs) m0 =
      some [progressLine 1 2 (fmt (fL m0 b)),
            progressLine 2 2 (fmt (fL (oS m0 b) b))] := by
  constructor
  · refine ⟨_, runLines_cons fL oS fmt n b bs m0, by simp, ?_⟩
    intro e he
    rw [List.get?_map, List.get?_range he]
    rfl
  · rw [runLines_cons]
    simp [List.range_succ, Function.iterate_one]

/-- Claim C7 (counterexample): supplying `--batch-size -1` does not raise
a `ConfigError` during configuration parsing: `int("-1")` succeeds, so the
option parses to the value `-1`. -/
theorem parseBatchSize_accepts_minus_one :
    parseBatchSize "-1" = Except.ok (-1) ∧
    parseBatchSize "-1" ≠ Except.error TrainError.configError := by
  refine ⟨rfl, ?_⟩
  intro h
  exact Except.noConfusion h

/-- Claim C7 (amended): `--batch-size -1` is accepted by configuration
parsing (the `int` conversion succeeds with value `-1`, no `ConfigError`);
the run then proceeds through dataset access, and fails only afterwards,
when the batch loader is constructed with a non-positive batch size (a
runtime `ValueError`, not a `ConfigError`). -/
theorem batchSize_minus_one_fails_after_dataset_access (cfg : Config)
    (fs : List (String × List α)) (modelInit : String → M)
    (fL : M → List α → L) (oS : Rat → M → List α → M) (fmt : L → String)
    (d : List α) (hb : cfg.batchSize = -1)
    (hd : assembleDataset fs (trainPattern cfg.dataroot) = Except.ok d) :
    parseBatchSize "-1" = Except.ok (-1) ∧
    mainRun cfg fs modelInit fL oS fmt = Except.error TrainError.valueError := by
  refine ⟨rfl, ?_⟩
  unfold mainRun
  rw [hd, hb]
  simp

/-- Witness for the amended C7: a configuration with batch size -1 over a
one-shard filesystem. -/
theorem batchSize_minus_one_fails_after_dataset_access_witness :
    (Config.mk (-1) 1 2 false 4 false "cuda" "d").batchSize = -1 ∧
    assembleDataset oneShard
      (trainPattern (Config.mk (-1) 1 2 false 4 false "cuda" "d").dataroot) =
      Except.ok [5] ∧
    (parseBatchSize "-1" = Except.ok (-1) ∧
     mainRun (Config.mk (-1) 1 2 false 4 false "cuda" "d") oneShard
        (fun _ => ()) (fun (_ : Unit) (_ : List Nat) => ()) (fun _ m _ => m)
        (fun _ => "") = Except.error TrainError.valueError) :=
  ⟨rfl, rfl,
   batchSize_minus_one_fails_after_dataset_access
     (Config.mk (-1) 1 2 false 4 false "cuda" "d") oneShard
     (fun _ => ()) (fun _ _ => ()) (fun _ m _ => m) (fun _ => "") [5] rfl rfl⟩

/-- Claim C8: when no shard file under the data root matches the fixed
glob pattern, the dataset assembler fails with the spec's
`DataSourceError` (the `ValueError` that `concatenate_datasets` raises on
an empty shard list). -/
theorem assembleDataset_no_match_error (fs : List (String × List α))
    (pat : String) (h : matchingShards fs pat = []) :
    assembleDataset fs pat = Except.error TrainError.dataSourceError := by
  unfold assembleDataset
  rw [h]

/-- Witness for C8 on a filesystem whose only file does not match the
pattern. -/
theorem assembleDataset_no_match_error_witness :
    matchingShards noShard (trainPattern "d") = [] ∧
    assembleDataset noShard (trainPattern "d") =
      Except.error TrainError.dataSourceError :=
  ⟨rfl, assembleDataset_no_match_error noShard (trainPattern "d") rfl⟩

/-- Claim C9: the `--use-tf32` flag is parsed (a `store_true` option set
exactly when present on the command line) but never read: two runs whose
configurations differ only in that flag produce identical results — same
errors, same printed lines, same everything `mainRun` observes. -/
theorem useTf32_no_behavioral_effect (cfg : Config) (flag : Bool)
    (fs : List (String × List α)) (modelInit : String → M)
    (fL : M → List α → L) (oS : Rat → M → List α → M) (fmt : L → String) :
    parseUseTf32 ["--use-tf32"] = true ∧
    parseUseTf32 [] = false ∧
    mainRun { cfg with useTf32 := flag } fs modelInit fL oS fmt =
      mainRun cfg fs modelInit fL oS fmt := by
  refine ⟨rfl, rfl, ?_⟩
  cases cfg
  rfl

/-- Claim C10: for a `RandomDataset(size, length)` with `size > 0` and any
index `i < length`, `__len__()` returns `length`; `data` has shape
`(length, size)`; `__getitem__(i)` returns the pair
`(data[i], target[i])` where `target[i]` is the 1-element row
`[sin m]` for `m` the maximum entry of row `data[i]`; and `target[i]` is
exactly the value fixed at construction (`getitem` is a pure read, so no
access changes it). -/
theorem randomDataset_len_getitem {α : Type} [LinearOrder α] (sin : α → α)
    (size length : Nat) (randn : Nat → Nat → α) (i : Nat)
    (hs : 0 < size) (hi : i < length) :
    (RandomDataset.init sin size length randn).lenValue = length ∧
    (RandomDataset.init sin size length randn).data.length = length ∧
    (∀ row ∈ (RandomDataset.init sin size length randn).data,
      row.length = size) ∧
    ∃ row m,
      (RandomDataset.init sin size length randn).data.get? i = some row ∧
      row.length = size ∧
      row.max? = some m ∧ m ∈ row ∧ (∀ x ∈ row, x ≤ m) ∧
      (RandomDataset.init sin size length randn).target.get? i =
        some [sin m] ∧
      (RandomDataset.init sin size length randn).getitem i =
        some (row, [sin m]) := by
  have hdata : (RandomDataset.init sin size length randn).data =
      (List.range length).map
        (fun x => (List.range size).map fun j => randn x j) := rfl
  have hrow : (RandomDataset.init sin size length randn).data.get? i =
      some ((List.range size).map fun j => randn i j) := by
    rw [hdata, List.get?_map, List.get?_range hi]
    rfl
  have hne : ((List.range size).map fun j => randn i j) ≠ [] := by
    simp only [ne_eq, List.map_eq_nil, List.range_eq_nil]
    omega
  obtain ⟨m, hm⟩ : ∃ m, ((List.range size).map fun j => randn i j).max? = some m := by
    cases hmax : ((List.range size).map fun j => randn i j).max? with
    | none => exact absurd (List.max?_eq_none_iff.mp hmax) hne
    | some m => exact ⟨m, rfl⟩
  have hms := max?_spec _ m hm
  have htgt : (RandomDataset.init sin size length randn).target.get? i =
      some [sin m] := by
    show (((List.range length).map
        (fun x => (List.range size).map fun j => randn x j)).map
        (fun row => match row.max? with
          | some m => [sin m]
          | none => [])).get? i = some [sin m]
    rw [List.get?_map, List.get?_map, List.get?_range hi]
    simp only [Option.map_some']
    rw [hm]
  refine ⟨rfl, by rw [hdata]; simp, ?_, ?_⟩
  · intro row hr
    rw [hdata] at hr
    obtain ⟨j, hj, hrow0⟩ := List.mem_map.mp hr
    rw [← hrow0]
    simp
  · refine ⟨(List.range size).map fun j => randn i j, m, hrow, by simp, hm,
      hms.1, hms.2, htgt, ?_⟩
    unfold RandomDataset.getitem
    rw [hrow, htgt]

/-- Witness for C10: a 3×2 dataset with entries `i*10 + j` over `Int`,
accessed at index 1. -/
theorem randomDataset_len_getitem_witness :
    0 < 2 ∧ 1 < 3 ∧
    ((RandomDataset.init (fun x : Int => x - 1) 2 3
        (fun i j => (i : Int) * 10 + j)).lenValue = 3 ∧
     (RandomDataset.init (fun x : Int => x - 1) 2 3
        (fun i j => (i : Int) * 10 + j)).data.length = 3 ∧
     (∀ row ∈ (RandomDataset.init (fun x : Int => x - 1) 2 3
        (fun i j => (i : Int) * 10 + j)).data, row.length = 2) ∧
     ∃ row m,
       (RandomDataset.init (fun x : Int => x - 1) 2 3
          (fun i j => (i : Int) * 10 + j)).data.get? 1 = some row ∧
       row.length = 2 ∧
       row.max? = some m ∧ m ∈ row ∧ (∀ x ∈ row, x ≤ m) ∧
       (RandomDataset.init (fun x : Int => x - 1) 2 3
          (fun i j => (i : Int) * 10 + j)).target.get? 1 =
         some [(fun x : Int => x - 1) m] ∧
       (RandomDataset.init (fun x : Int => x - 1) 2 3
          (fun i j => (i : Int) * 10 + j)).getitem 1 =
         some (row, [(fun x : Int => x - 1) m])) :=
  ⟨by decide, by decide,
   randomDataset_len_getitem (fun x : Int => x - 1) 2 3
     (fun i j => (i : Int) * 10 + j) 1 (by decide) (by decide)⟩
